import Mathlib

/-
Shallow embedding of the ai-coder-workbench backend: the five entity
tables of `src/server/src/db/schema.ts` and the CRUD handlers of
`src/server/src/handlers/`.  The relational store is a record of lists
of rows plus per-table serial counters; timestamps are naturals and
`new Date()` / `defaultNow()` is modelled by an explicit `now`
parameter.  TypeScript `T | null | undefined` optional-input fields are
`Option (Option T)` (absent / explicit null / value); handlers that
throw are `Except String`.
-/

set_option linter.unusedVariables false

namespace Workbench

/-- The `auth_provider` pgEnum of `db/schema.ts`. -/
inductive AuthProvider where
  | google
  | facebook
  | email
deriving DecidableEq

/-- The `coding_language` pgEnum of `db/schema.ts` (13 values). -/
inductive CodingLanguage where
  | javascript
  | typescript
  | python
  | java
  | cpp
  | csharp
  | go
  | rust
  | php
  | ruby
  | kotlin
  | swift
  | other
deriving DecidableEq

/-- The `ai_model` pgEnum of `db/schema.ts`. -/
inductive AiModel where
  | claudeSonnet
  | gemini25flash
  | gpt4
deriving DecidableEq

/-- The `message_role` pgEnum of `db/schema.ts`. -/
inductive MessageRole where
  | user
  | assistant
deriving DecidableEq

/-- A row of `usersTable`. -/
structure User where
  id : Nat
  email : String
  name : String
  avatar_url : Option String
  auth_provider : AuthProvider
  auth_provider_id : String
  preferred_coding_language : CodingLanguage
  preferred_ai_model : AiModel
  created_at : Nat
  updated_at : Nat
deriving DecidableEq

/-- A row of `projectsTable`. -/
structure Project where
  id : Nat
  user_id : Nat
  name : String
  description : Option String
  coding_language : CodingLanguage
  created_at : Nat
  updated_at : Nat
deriving DecidableEq

/-- A row of `conversationsTable`. -/
structure Conversation where
  id : Nat
  project_id : Nat
  user_id : Nat
  title : String
  ai_model : AiModel
  created_at : Nat
  updated_at : Nat
deriving DecidableEq

/-- A row of `messagesTable`; `metadata` is an opaque JSON key-value map. -/
structure Message where
  id : Nat
  conversation_id : Nat
  role : MessageRole
  content : String
  metadata : Option (List (String × String))
  created_at : Nat
deriving DecidableEq

/-- A row of `codeSnippetsTable`. -/
structure CodeSnippet where
  id : Nat
  conversation_id : Nat
  message_id : Option Nat
  title : String
  code : String
  language : CodingLanguage
  description : Option String
  created_at : Nat
  updated_at : Nat
deriving DecidableEq

/-- The relational store: the five tables plus their serial counters
(postgres `serial` starts at 1 and allocates monotonically). -/
structure DB where
  users : List User
  projects : List Project
  conversations : List Conversation
  messages : List Message
  codeSnippets : List CodeSnippet
  nextUserId : Nat
  nextProjectId : Nat
  nextConversationId : Nat
  nextMessageId : Nat
  nextCodeSnippetId : Nat
deriving DecidableEq

/-- The empty store, as created by the migrations: serial counters start at 1. -/
def DB.empty : DB :=
  { users := [], projects := [], conversations := [], messages := [],
    codeSnippets := [], nextUserId := 1, nextProjectId := 1,
    nextConversationId := 1, nextMessageId := 1, nextCodeSnippetId := 1 }

/-- JavaScript `x || null` on a `string | null | undefined` value:
`undefined` and `null` and the falsy `""` all collapse to null. -/
def coalesceStr : Option (Option String) → Option String
  | some (some s) => if s = "" then none else some s
  | _ => none

/-- JavaScript truthiness of a `number | null | undefined` value:
`undefined`, `null` and `0` are falsy. -/
def truthyNat : Option Nat → Bool
  | none => false
  | some m => m != 0

/-- Insertion step of the stable sort modelling SQL `ORDER BY`:
`le x y` means `x` may come no later than `y`. -/
def insertLeBy (le : α → α → Bool) (x : α) : List α → List α
  | [] => [x]
  | y :: ys => if le x y then x :: y :: ys else y :: insertLeBy le x ys

/-- Insertion sort by the comparator `le`; models SQL `ORDER BY col`. -/
def sortLeBy (le : α → α → Bool) : List α → List α
  | [] => []
  | x :: xs => insertLeBy le x (sortLeBy le xs)

/-- `createUserInputSchema` of `schema.ts`; `avatar_url` is
`.nullable().optional()`, so absent / explicit null / value. -/
structure CreateUserInput where
  email : String
  name : String
  avatar_url : Option (Option String) := none
  auth_provider : AuthProvider
  auth_provider_id : String
  preferred_coding_language : CodingLanguage
  preferred_ai_model : AiModel
deriving DecidableEq

/-- `updateUserInputSchema` of `schema.ts`. -/
structure UpdateUserInput where
  id : Nat
  name : Option String := none
  avatar_url : Option (Option String) := none
  preferred_coding_language : Option CodingLanguage := none
  preferred_ai_model : Option AiModel := none
deriving DecidableEq

/-- `authInputSchema` of `schema.ts`. -/
structure AuthInput where
  email : Option String := none
  password : Option String := none
  auth_provider : AuthProvider
  auth_provider_id : String
  name : String
  avatar_url : Option (Option String) := none
deriving DecidableEq

/-- `createProjectInputSchema` of `schema.ts`. -/
structure CreateProjectInput where
  user_id : Nat
  name : String
  description : Option (Option String) := none
  coding_language : CodingLanguage
deriving DecidableEq

/-- `updateProjectInputSchema` of `schema.ts`. -/
structure UpdateProjectInput where
  id : Nat
  name : Option String := none
  description : Option (Option String) := none
  coding_language : Option CodingLanguage := none
deriving DecidableEq

/-- `createConversationInputSchema` of `schema.ts`. -/
structure CreateConversationInput where
  project_id : Nat
  user_id : Nat
  title : String
  ai_model : AiModel
deriving DecidableEq

/-- `updateConversationInputSchema` of `schema.ts`. -/
structure UpdateConversationInput where
  id : Nat
  title : Option String := none
  ai_model : Option AiModel := none
deriving DecidableEq

/-- `createCodeSnippetInputSchema` of `schema.ts`. -/
structure CreateCodeSnippetInput where
  conversation_id : Nat
  message_id : Option Nat := none
  title : String
  code : String
  language : CodingLanguage
  description : Option (Option String) := none
deriving DecidableEq

/-- `updateCodeSnippetInputSchema` of `schema.ts`. -/
structure UpdateCodeSnippetInput where
  id : Nat
  title : Option String := none
  code : Option String := none
  language : Option CodingLanguage := none
  description : Option (Option String) := none
deriving DecidableEq

/-- `handlers/create_user.ts`: inserts the row (avatar coerced with
`input.avatar_url || null`); the store enforces the unique email
constraint, surfaced as a failure. Both timestamps are `defaultNow()`. -/
def createUser (db : DB) (now : Nat) (i : CreateUserInput) :
    Except String (User × DB) :=
  if db.users.any (fun u => u.email == i.email) then
    .error "duplicate key value violates unique constraint on email"
  else
    let u : User :=
      { id := db.nextUserId, email := i.email, name := i.name,
        avatar_url := coalesceStr i.avatar_url,
        auth_provider := i.auth_provider,
        auth_provider_id := i.auth_provider_id,
        preferred_coding_language := i.preferred_coding_language,
        preferred_ai_model := i.preferred_ai_model,
        created_at := now, updated_at := now }
    .ok (u, { db with users := db.users ++ [u], nextUserId := db.nextUserId + 1 })

/-- `handlers/get_user_by_auth.ts`: select where `auth_provider` and
`auth_provider_id` both match, `limit 1`; null when no row matches. -/
def getUserByAuth (db : DB) (i : AuthInput) : Option User :=
  db.users.find? (fun u =>
    u.auth_provider == i.auth_provider && u.auth_provider_id == i.auth_provider_id)

/-- Applies an `updateUser` partial-update object to a row: fields the
input carries (`!== undefined`) are overwritten, `updated_at` always. -/
def applyUserUpdate (now : Nat) (i : UpdateUserInput) (u : User) : User :=
  { u with
    name := i.name.getD u.name,
    avatar_url := match i.avatar_url with
      | some v => v
      | none => u.avatar_url,
    preferred_coding_language :=
      i.preferred_coding_language.getD u.preferred_coding_language,
    preferred_ai_model := i.preferred_ai_model.getD u.preferred_ai_model,
    updated_at := now }

/-- `handlers/update_user.ts`: select by id (throw "not found" when
empty), then update-where-id with only the provided fields plus a fresh
`updated_at`, returning the first updated row. -/
def updateUser (db : DB) (now : Nat) (i : UpdateUserInput) :
    Except String (User × DB) :=
  match db.users.find? (fun u => u.id == i.id) with
  | none => .error "User not found"
  | some u =>
    .ok (applyUserUpdate now i u,
      { db with users :=
          db.users.map (fun x => if x.id == i.id then applyUserUpdate now i x else x) })

/-- `handlers/create_project.ts` (`src/unnamed/part_001`): validate the
user exists, then insert with `description: input.description || null`. -/
def createProject (db : DB) (now : Nat) (i : CreateProjectInput) :
    Except String (Project × DB) :=
  if (db.users.filter (fun u => u.id == i.user_id)).isEmpty then
    .error "User does not exist"
  else
    let p : Project :=
      { id := db.nextProjectId, user_id := i.user_id, name := i.name,
        description := coalesceStr i.description,
        coding_language := i.coding_language,
        created_at := now, updated_at := now }
    .ok (p, { db with projects := db.projects ++ [p],
                      nextProjectId := db.nextProjectId + 1 })

/-- Applies an `updateProject` partial-update object to a row. -/
def applyProjectUpdate (now : Nat) (i : UpdateProjectInput) (p : Project) : Project :=
  { p with
    name := i.name.getD p.name,
    description := match i.description with
      | some v => v
      | none => p.description,
    coding_language := i.coding_language.getD p.coding_language,
    updated_at := now }

/-- `updateProject` (`src/unnamed/part_010`): select by id (throw when
empty), then update-where-id with provided fields plus `updated_at`. -/
def updateProject (db : DB) (now : Nat) (i : UpdateProjectInput) :
    Except String (Project × DB) :=
  match db.projects.find? (fun p => p.id == i.id) with
  | none => .error "Project not found"
  | some p =>
    .ok (applyProjectUpdate now i p,
      { db with projects :=
          db.projects.map (fun x => if x.id == i.id then applyProjectUpdate now i x else x) })

/-- `handlers/get_user_projects.ts`: select where `user_id`, ordered by
`updated_at` descending. -/
def getUserProjects (db : DB) (user_id : Nat) : List Project :=
  sortLeBy (fun a b => decide (b.updated_at ≤ a.updated_at))
    (db.projects.filter (fun p => p.user_id == user_id))

/-- `deleteProject` (`src/unnamed/part_004`): one conditional delete
matching both id and owning user id; cascades (conversations, messages,
snippets; `SET NULL` on `CodeSnippet.message_id`) are the store's
declared foreign-key actions.  Returns `rowCount > 0` for the projects
table delete. -/
def deleteProject (db : DB) (projectId userId : Nat) : Bool × DB :=
  let removed := db.projects.filter
    (fun p => p.id == projectId && p.user_id == userId)
  let kept := db.projects.filter
    (fun p => !(p.id == projectId && p.user_id == userId))
  let removedProjectIds := removed.map (fun p => p.id)
  let removedConvIds := (db.conversations.filter
    (fun c => removedProjectIds.contains c.project_id)).map (fun c => c.id)
  let keptConvs := db.conversations.filter
    (fun c => !removedProjectIds.contains c.project_id)
  let removedMsgIds := (db.messages.filter
    (fun m => removedConvIds.contains m.conversation_id)).map (fun m => m.id)
  let keptMsgs := db.messages.filter
    (fun m => !removedConvIds.contains m.conversation_id)
  let keptSnips := (db.codeSnippets.filter
    (fun s => !removedConvIds.contains s.conversation_id)).map
    (fun s => match s.message_id with
      | some mid =>
        if removedMsgIds.contains mid then { s with message_id := none } else s
      | none => s)
  (removed.length > 0,
    { db with projects := kept, conversations := keptConvs,
              messages := keptMsgs, codeSnippets := keptSnips })

/-- `handlers/create_conversation.ts`: validate the user exists, then
validate a project matching both id and owner in one query, then insert. -/
def createConversation (db : DB) (now : Nat) (i : CreateConversationInput) :
    Except String (Conversation × DB) :=
  if (db.users.filter (fun u => u.id == i.user_id)).isEmpty then
    .error "User not found"
  else if (db.projects.filter
      (fun p => p.id == i.project_id && p.user_id == i.user_id)).isEmpty then
    .error "Project not found or does not belong to user"
  else
    let c : Conversation :=
      { id := db.nextConversationId, project_id := i.project_id,
        user_id := i.user_id, title := i.title, ai_model := i.ai_model,
        created_at := now, updated_at := now }
    .ok (c, { db with conversations := db.conversations ++ [c],
                      nextConversationId := db.nextConversationId + 1 })

/-- Applies an `updateConversation` partial-update object to a row. -/
def applyConversationUpdate (now : Nat) (i : UpdateConversationInput)
    (c : Conversation) : Conversation :=
  { c with
    title := i.title.getD c.title,
    ai_model := i.ai_model.getD c.ai_model,
    updated_at := now }

/-- `updateConversation` (`src/unnamed/part_009`): update-where-id with
provided fields plus `updated_at`; throws when no row was updated. -/
def updateConversation (db : DB) (now : Nat) (i : UpdateConversationInput) :
    Except String (Conversation × DB) :=
  match db.conversations.find? (fun c => c.id == i.id) with
  | none => .error "Conversation not found"
  | some c =>
    .ok (applyConversationUpdate now i c,
      { db with conversations :=
          (db.conversations.map
            (fun x => if x.id == i.id then applyConversationUpdate now i x else x)) })

/-- `getProjectConversations` (`src/unnamed/part_005`): select where
`project_id`, ordered by `updated_at` descending. -/
def getProjectConversations (db : DB) (project_id : Nat) : List Conversation :=
  sortLeBy (fun a b => decide (b.updated_at ≤ a.updated_at))
    (db.conversations.filter (fun c => c.project_id == project_id))

/-- `handlers/get_conversation_messages.ts`: select where
`conversation_id`, ordered by `created_at` ascending. -/
def getConversationMessages (db : DB) (conversation_id : Nat) : List Message :=
  sortLeBy (fun a b => decide (a.created_at ≤ b.created_at))
    (db.messages.filter (fun m => m.conversation_id == conversation_id))

/-- `handlers/create_code_snippet.ts`: validate the conversation exists;
when `input.message_id` is truthy, validate the message exists and
belongs to the supplied conversation; insert with
`message_id: input.message_id || null` and
`description: input.description || null`. -/
def createCodeSnippet (db : DB) (now : Nat) (i : CreateCodeSnippetInput) :
    Except String (CodeSnippet × DB) :=
  if (db.conversations.filter (fun c => c.id == i.conversation_id)).isEmpty then
    .error "Conversation not found"
  else
    let check : Except String Unit :=
      if truthyNat i.message_id then
        match db.messages.find? (fun m => m.id == i.message_id.getD 0) with
        | none => .error "Message not found"
        | some m =>
          if m.conversation_id ≠ i.conversation_id then
            .error "Message does not belong to conversation"
          else .ok ()
      else .ok ()
    match check with
    | .error e => .error e
    | .ok _ =>
      let s : CodeSnippet :=
        { id := db.nextCodeSnippetId, conversation_id := i.conversation_id,
          message_id := if truthyNat i.message_id then i.message_id else none,
          title := i.title, code := i.code, language := i.language,
          description := coalesceStr i.description,
          created_at := now, updated_at := now }
      .ok (s, { db with codeSnippets := db.codeSnippets ++ [s],
                        nextCodeSnippetId := db.nextCodeSnippetId + 1 })

/-- Applies an `updateCodeSnippet` partial-update object to a row. -/
def applyCodeSnippetUpdate (now : Nat) (i : UpdateCodeSnippetInput)
    (s : CodeSnippet) : CodeSnippet :=
  { s with
    title := i.title.getD s.title,
    code := i.code.getD s.code,
    language := i.language.getD s.language,
    description := match i.description with
      | some v => v
      | none => s.description,
    updated_at := now }

/-- `handlers/update_code_snippet.ts`: update-where-id with provided
fields plus `updated_at`; throws when no row was updated. -/
def updateCodeSnippet (db : DB) (now : Nat) (i : UpdateCodeSnippetInput) :
    Except String (CodeSnippet × DB) :=
  match db.codeSnippets.find? (fun s => s.id == i.id) with
  | none => .error "Code snippet not found"
  | some s =>
    .ok (applyCodeSnippetUpdate now i s,
      { db with codeSnippets :=
          (db.codeSnippets.map
            (fun x => if x.id == i.id then applyCodeSnippetUpdate now i x else x)) })

/-- `handlers/get_conversation_code_snippets.ts`: select where
`conversation_id`, ordered by `created_at` descending. -/
def getConversationCodeSnippets (db : DB) (conversation_id : Nat) :
    List CodeSnippet :=
  sortLeBy (fun a b => decide (b.created_at ≤ a.created_at))
    (db.codeSnippets.filter (fun s => s.conversation_id == conversation_id))

/- Concrete fixtures used to instantiate the theorems below. -/

/-- A sample project row owned by user 1. -/
def pC1 : Project :=
  { id := 1, user_id := 1, name := "P", description := none,
    coding_language := CodingLanguage.python, created_at := 1, updated_at := 1 }

/-- A store holding just `pC1`. -/
def dbC1 : DB := { DB.empty with projects := [pC1], nextProjectId := 2 }

/-- A sample user row with id 1. -/
def uC2 : User :=
  { id := 1, email := "a@b.c", name := "A", avatar_url := none,
    auth_provider := AuthProvider.google, auth_provider_id := "g1",
    preferred_coding_language := CodingLanguage.python,
    preferred_ai_model := AiModel.gpt4, created_at := 1, updated_at := 1 }

/-- A store holding user `uC2` and project `pC1`. -/
def dbC2 : DB :=
  { DB.empty with users := [uC2], projects := [pC1],
                  nextUserId := 2, nextProjectId := 2 }

/-- A conversation-creation request by user 1 on project 1. -/
def inC2 : CreateConversationInput :=
  { project_id := 1, user_id := 1, title := "T", ai_model := AiModel.gpt4 }

/-- The conversation row `createConversation dbC2 5 inC2` produces. -/
def cC2 : Conversation :=
  { id := 1, project_id := 1, user_id := 1, title := "T",
    ai_model := AiModel.gpt4, created_at := 5, updated_at := 5 }

/-- The store `createConversation dbC2 5 inC2` produces. -/
def dbC2' : DB := { dbC2 with conversations := [cC2], nextConversationId := 2 }

/-- A store holding just user `uC2`, for the update fixture. -/
def dbC3 : DB := { DB.empty with users := [uC2], nextUserId := 2 }

/-- An update request for user 1 supplying no mutable fields at all. -/
def iC3 : UpdateUserInput := { id := 1 }

/-- A conversation row with id 1 for the snippet fixtures. -/
def convC4 : Conversation :=
  { id := 1, project_id := 1, user_id := 1, title := "t",
    ai_model := AiModel.gpt4, created_at := 1, updated_at := 1 }

/-- A store holding just conversation `convC4` and no messages. -/
def dbC4 : DB := { DB.empty with conversations := [convC4], nextConversationId := 2 }

/-- A snippet-creation request supplying `message_id = 0`. -/
def inC4 : CreateCodeSnippetInput :=
  { conversation_id := 1, message_id := some 0, title := "s", code := "c",
    language := CodingLanguage.python }

/-- A snippet-creation request against an empty store. -/
def inW4 : CreateCodeSnippetInput :=
  { conversation_id := 1, title := "s", code := "c",
    language := CodingLanguage.python }

/-- A user-creation request. -/
def iC7 : CreateUserInput :=
  { email := "a@b.c", name := "A", auth_provider := AuthProvider.email,
    auth_provider_id := "x", preferred_coding_language := CodingLanguage.python,
    preferred_ai_model := AiModel.gpt4 }

/-- The user row `createUser DB.empty 5 iC7` produces. -/
def uC7 : User :=
  { id := 1, email := "a@b.c", name := "A", avatar_url := none,
    auth_provider := AuthProvider.email, auth_provider_id := "x",
    preferred_coding_language := CodingLanguage.python,
    preferred_ai_model := AiModel.gpt4, created_at := 5, updated_at := 5 }

/-- The store `createUser DB.empty 5 iC7` produces. -/
def dbC7' : DB := { DB.empty with users := [uC7], nextUserId := 2 }

/-- A store holding one google-authenticated user. -/
def dbC8 : DB := { DB.empty with users := [uC2], nextUserId := 2 }

/-- An auth lookup request. -/
def iC8a : AuthInput :=
  { auth_provider := AuthProvider.google, auth_provider_id := "g1",
    name := "X", email := some "x@y.z", password := some "secret1" }

/-- Same auth pair as `iC8a`, all other fields different. -/
def iC8b : AuthInput :=
  { auth_provider := AuthProvider.google, auth_provider_id := "g1",
    name := "Y", email := none, password := none,
    avatar_url := some (some "http://a") }

/-- A store holding one conversation, for the zero-message-id fixture. -/
def dbC9 : DB := { DB.empty with conversations := [convC4], nextConversationId := 2 }

/-- A snippet-creation request with `message_id = 0` and no messages around. -/
def inC9 : CreateCodeSnippetInput :=
  { conversation_id := 1, message_id := some 0, title := "z", code := "w",
    language := CodingLanguage.go }

/-- A store holding just user `uC2`, for the empty-description fixture. -/
def dbC10 : DB := { DB.empty with users := [uC2], nextUserId := 2 }

/-- A project-creation request whose description is explicitly `""`. -/
def iC10 : CreateProjectInput :=
  { user_id := 1, name := "P", description := some (some ""),
    coding_language := CodingLanguage.python }

/-- The project row `createProject dbC10 5 iC10` produces. -/
def pC10 : Project :=
  { id := 1, user_id := 1, name := "P", description := none,
    coding_language := CodingLanguage.python, created_at := 5, updated_at := 5 }

/-- The store `createProject dbC10 5 iC10` produces. -/
def dbC10' : DB := { dbC10 with projects := [pC10], nextProjectId := 2 }

/- General lemmas about the sort modelling SQL `ORDER BY`. -/

theorem insertLeBy_perm (le : α → α → Bool) (x : α) :
    ∀ l : List α, List.Perm (insertLeBy le x l) (x :: l)
  | [] => List.Perm.refl _
  | y :: ys => by
    cases hxy : le x y with
    | true => simp [insertLeBy, hxy]
    | false =>
      simp only [insertLeBy, hxy, Bool.false_eq_true, if_false]
      exact ((insertLeBy_perm le x ys).cons y).trans (List.Perm.swap x y ys)

theorem sortLeBy_perm (le : α → α → Bool) :
    ∀ l : List α, List.Perm (sortLeBy le l) l
  | [] => List.Perm.refl _
  | x :: xs =>
    (insertLeBy_perm le x (sortLeBy le xs)).trans ((sortLeBy_perm le xs).cons x)

theorem insertLeBy_pairwise (le : α → α → Bool)
    (htot : ∀ a b, le a b = true ∨ le b a = true)
    (htrans : ∀ a b c, le a b = true → le b c = true → le a c = true)
    (x : α) :
    ∀ l : List α, l.Pairwise (fun a b => le a b = true) →
      (insertLeBy le x l).Pairwise (fun a b => le a b = true)
  | [], _ => by simp [insertLeBy]
  | y :: ys, h => by
    rcases List.pairwise_cons.mp h with ⟨hy, hys⟩
    cases hxy : le x y with
    | true =>
      simp only [insertLeBy, hxy, if_true, List.pairwise_cons]
      refine ⟨?_, hy, hys⟩
      intro b hb
      rcases List.mem_cons.mp hb with rfl | hb
      · exact hxy
      · exact htrans x y b hxy (hy b hb)
    | false =>
      have hyx : le y x = true := (htot x y).resolve_left (by simp [hxy])
      simp only [insertLeBy, hxy, Bool.false_eq_true, if_false, List.pairwise_cons]
      refine ⟨?_, insertLeBy_pairwise le htot htrans x ys hys⟩
      intro b hb
      rcases List.mem_cons.mp ((insertLeBy_perm le x ys).mem_iff.mp hb) with rfl | hb
      · exact hyx
      · exact hy b hb

theorem sortLeBy_pairwise (le : α → α → Bool)
    (htot : ∀ a b, le a b = true ∨ le b a = true)
    (htrans : ∀ a b c, le a b = true → le b c = true → le a c = true) :
    ∀ l : List α, (sortLeBy le l).Pairwise (fun a b => le a b = true)
  | [] => List.Pairwise.nil
  | x :: xs =>
    insertLeBy_pairwise le htot htrans x (sortLeBy le xs)
      (sortLeBy_pairwise le htot htrans xs)

theorem sortLeBy_pairwise_key_desc (key : α → Nat) (l : List α) :
    (sortLeBy (fun a b => decide (key b ≤ key a)) l).Pairwise
      (fun a b => key b ≤ key a) := by
  have htot : ∀ a b : α,
      decide (key b ≤ key a) = true ∨ decide (key a ≤ key b) = true := by
    intro a b
    rcases Nat.le_total (key b) (key a) with h | h
    · exact Or.inl (decide_eq_true h)
    · exact Or.inr (decide_eq_true h)
  have htrans : ∀ a b c : α, decide (key b ≤ key a) = true →
      decide (key c ≤ key b) = true → decide (key c ≤ key a) = true := by
    intro a b c h1 h2
    exact decide_eq_true (Nat.le_trans (of_decide_eq_true h2) (of_decide_eq_true h1))
  exact (sortLeBy_pairwise _ htot htrans l).imp (fun h => of_decide_eq_true h)

theorem sortLeBy_pairwise_key_asc (key : α → Nat) (l : List α) :
    (sortLeBy (fun a b => decide (key a ≤ key b)) l).Pairwise
      (fun a b => key a ≤ key b) := by
  have htot : ∀ a b : α,
      decide (key a ≤ key b) = true ∨ decide (key b ≤ key a) = true := by
    intro a b
    rcases Nat.le_total (key a) (key b) with h | h
    · exact Or.inl (decide_eq_true h)
    · exact Or.inr (decide_eq_true h)
  have htrans : ∀ a b c : α, decide (key a ≤ key b) = true →
      decide (key b ≤ key c) = true → decide (key a ≤ key c) = true := by
    intro a b c h1 h2
    exact decide_eq_true (Nat.le_trans (of_decide_eq_true h1) (of_decide_eq_true h2))
  exact (sortLeBy_pairwise _ htot htrans l).imp (fun h => of_decide_eq_true h)

/-- C5: for every state of the store, getUserProjects returns the user's
projects ordered by updated_at descending, getProjectConversations the
project's conversations by updated_at descending, getConversationMessages
the conversation's messages by created_at ascending, and
getConversationCodeSnippets the conversation's snippets by created_at
descending; each result is exactly the matching rows (ties in any order). -/
theorem list_handlers_order_and_content :
    (∀ (db : DB) (uid : Nat),
        (getUserProjects db uid).Pairwise (fun a b => b.updated_at ≤ a.updated_at) ∧
        List.Perm (getUserProjects db uid)
          (db.projects.filter (fun p => p.user_id == uid))) ∧
    (∀ (db : DB) (pid : Nat),
        (getProjectConversations db pid).Pairwise
          (fun a b => b.updated_at ≤ a.updated_at) ∧
        List.Perm (getProjectConversations db pid)
          (db.conversations.filter (fun c => c.project_id == pid))) ∧
    (∀ (db : DB) (cid : Nat),
        (getConversationMessages db cid).Pairwise
          (fun a b => a.created_at ≤ b.created_at) ∧
        List.Perm (getConversationMessages db cid)
          (db.messages.filter (fun m => m.conversation_id == cid))) ∧
    (∀ (db : DB) (cid : Nat),
        (getConversationCodeSnippets db cid).Pairwise
          (fun a b => b.created_at ≤ a.created_at) ∧
        List.Perm (getConversationCodeSnippets db cid)
          (db.codeSnippets.filter (fun s => s.conversation_id == cid))) := by
  refine ⟨fun db uid => ⟨?_, ?_⟩, fun db pid => ⟨?_, ?_⟩,
          fun db cid => ⟨?_, ?_⟩, fun db cid => ⟨?_, ?_⟩⟩
  · exact sortLeBy_pairwise_key_desc (fun p : Project => p.updated_at) _
  · exact sortLeBy_perm _ _
  · exact sortLeBy_pairwise_key_desc (fun c : Conversation => c.updated_at) _
  · exact sortLeBy_perm _ _
  · exact sortLeBy_pairwise_key_asc (fun m : Message => m.created_at) _
  · exact sortLeBy_perm _ _
  · exact sortLeBy_pairwise_key_desc (fun s : CodeSnippet => s.created_at) _
  · exact sortLeBy_perm _ _

/-- C6: every list operation returns an empty sequence, not an error, both
when the parent id exists but has no matching children and when the parent
id does not exist at all (the handlers are total and just filter). -/
theorem list_handlers_empty_on_no_match :
    (∀ (db : DB) (uid : Nat), (∀ p ∈ db.projects, p.user_id ≠ uid) →
        getUserProjects db uid = []) ∧
    (∀ (db : DB) (pid : Nat), (∀ c ∈ db.conversations, c.project_id ≠ pid) →
        getProjectConversations db pid = []) ∧
    (∀ (db : DB) (cid : Nat), (∀ m ∈ db.messages, m.conversation_id ≠ cid) →
        getConversationMessages db cid = []) ∧
    (∀ (db : DB) (cid : Nat), (∀ s ∈ db.codeSnippets, s.conversation_id ≠ cid) →
        getConversationCodeSnippets db cid = []) := by
  refine ⟨fun db uid h => ?_, fun db pid h => ?_, fun db cid h => ?_,
          fun db cid h => ?_⟩
  · have hnil : db.projects.filter (fun p => p.user_id == uid) = [] :=
      List.filter_eq_nil_iff.mpr (fun p hp => by simpa using h p hp)
    unfold getUserProjects
    rw [hnil]
    rfl
  · have hnil : db.conversations.filter (fun c => c.project_id == pid) = [] :=
      List.filter_eq_nil_iff.mpr (fun c hc => by simpa using h c hc)
    unfold getProjectConversations
    rw [hnil]
    rfl
  · have hnil : db.messages.filter (fun m => m.conversation_id == cid) = [] :=
      List.filter_eq_nil_iff.mpr (fun m hm => by simpa using h m hm)
    unfold getConversationMessages
    rw [hnil]
    rfl
  · have hnil : db.codeSnippets.filter (fun s => s.conversation_id == cid) = [] :=
      List.filter_eq_nil_iff.mpr (fun s hs => by simpa using h s hs)
    unfold getConversationCodeSnippets
    rw [hnil]
    rfl

/-- Witness for C6 at a concrete store: listing projects of a user id
absent from the empty store yields the empty list. -/
theorem list_handlers_empty_on_no_match_witness : getUserProjects DB.empty 3 = [] :=
  (list_handlers_empty_on_no_match).1 DB.empty 3 (by simp [DB.empty])

/-- C7: for every valid createUser input, the returned entity carries a
system-assigned id strictly greater than 0 (serial counters stay positive)
and its created_at equals its updated_at at creation. -/
theorem createUser_id_pos_timestamps_eq (db : DB) (now : Nat)
    (i : CreateUserInput) (u : User) (db' : DB) (hpos : 0 < db.nextUserId)
    (h : createUser db now i = .ok (u, db')) :
    0 < u.id ∧ u.created_at = u.updated_at := by
  unfold createUser at h
  by_cases hdup : db.users.any (fun x => x.email == i.email) = true
  · simp [hdup] at h
  · rw [if_neg hdup] at h
    simp only [Except.ok.injEq, Prod.mk.injEq] at h
    obtain ⟨hu, _⟩ := h
    subst hu
    exact ⟨hpos, rfl⟩

/-- Witness for C7: creating a user in the empty store yields id 1 > 0 and
equal timestamps. -/
theorem createUser_id_pos_timestamps_eq_witness :
    0 < uC7.id ∧ uC7.created_at = uC7.updated_at :=
  createUser_id_pos_timestamps_eq DB.empty 5 iC7 uC7 dbC7' (by decide) rfl

/-- C8: the result of getUserByAuth depends only on auth_provider and
auth_provider_id; name, email, password and avatar_url neither affect the
result nor touch the store (the handler is a pure read). -/
theorem getUserByAuth_auth_fields_only (db : DB) (i1 i2 : AuthInput)
    (hp : i1.auth_provider = i2.auth_provider)
    (hid : i1.auth_provider_id = i2.auth_provider_id) :
    getUserByAuth db i1 = getUserByAuth db i2 := by
  simp only [getUserByAuth, hp, hid]

/-- Witness for C8: two lookups agreeing only on the auth pair (differing
in name, email, password and avatar_url) return the same result. -/
theorem getUserByAuth_auth_fields_only_witness :
    getUserByAuth dbC8 iC8a = getUserByAuth dbC8 iC8b :=
  getUserByAuth_auth_fields_only dbC8 iC8a iC8b rfl rfl

/-- C9: a createCodeSnippet input whose message_id equals 0 skips the
message existence and same-conversation checks entirely (the guard tests
truthiness) and the snippet is created with message_id stored as null;
this holds for every store whose conversation check passes, whatever its
messages table holds. -/
theorem createCodeSnippet_zero_message_id_skips_checks (db : DB) (now : Nat)
    (i : CreateCodeSnippetInput) (hmid : i.message_id = some 0)
    (hconv : ∃ c ∈ db.conversations, c.id = i.conversation_id) :
    ∃ s db', createCodeSnippet db now i = .ok (s, db') ∧ s.message_id = none := by
  obtain ⟨c, hc, hcid⟩ := hconv
  have hmem : c ∈ db.conversations.filter (fun x => x.id == i.conversation_id) :=
    List.mem_filter.mpr ⟨hc, by simp [hcid]⟩
  have hne : (db.conversations.filter
      (fun x => x.id == i.conversation_id)).isEmpty = false :=
    List.isEmpty_eq_false.mpr (List.ne_nil_of_mem hmem)
  have htr : truthyNat i.message_id = false := by rw [hmid]; rfl
  unfold createCodeSnippet
  simp only [hne, Bool.false_eq_true, if_false, htr]
  exact ⟨_, _, rfl, rfl⟩

/-- Witness for C9: a snippet created with message_id 0 against a store
with no messages at all succeeds and stores null. -/
theorem createCodeSnippet_zero_message_id_skips_checks_witness :
    ∃ s db', createCodeSnippet dbC9 7 inC9 = .ok (s, db') ∧ s.message_id = none :=
  createCodeSnippet_zero_message_id_skips_checks dbC9 7 inC9 rfl
    ⟨convC4, by simp [dbC9], rfl⟩

/-- C10: a createProject or createCodeSnippet input whose optional
description is explicitly the empty string produces a row whose
description is null, not the empty string (the handlers coerce falsy
values with description-or-null). -/
theorem create_empty_description_stored_null :
    (∀ (db : DB) (now : Nat) (i : CreateProjectInput) (p : Project) (db' : DB),
        createProject db now i = .ok (p, db') →
        i.description = some (some "") → p.description = none) ∧
    (∀ (db : DB) (now : Nat) (i : CreateCodeSnippetInput) (s : CodeSnippet)
        (db' : DB),
        createCodeSnippet db now i = .ok (s, db') →
        i.description = some (some "") → s.description = none) := by
  constructor
  · intro db now i p db' h hdesc
    unfold createProject at h
    split at h
    · cases h
    · simp only [Except.ok.injEq, Prod.mk.injEq] at h
      obtain ⟨hp, _⟩ := h
      subst hp
      simp [hdesc, coalesceStr]
  · intro db now i s db' h hdesc
    unfold createCodeSnippet at h
    split at h
    · cases h
    · cases htr : truthyNat i.message_id with
      | false =>
        simp only [htr, Bool.false_eq_true, if_false] at h
        simp only [Except.ok.injEq, Prod.mk.injEq] at h
        obtain ⟨hs, _⟩ := h
        subst hs
        simp [hdesc, coalesceStr]
      | true =>
        simp only [htr, if_true] at h
        split at h
        · cases h
        · simp only [Except.ok.injEq, Prod.mk.injEq] at h
          obtain ⟨hs, _⟩ := h
          subst hs
          simp [hdesc, coalesceStr]

/-- Witness for C10: a project created with description "" stores null. -/
theorem create_empty_description_stored_null_witness : pC10.description = none :=
  (create_empty_description_stored_null).1 dbC10 5 iC10 pC10 dbC10' rfl rfl

theorem deleteProject_no_match (db : DB) (pid uid : Nat)
    (h : ∀ p ∈ db.projects, ¬(p.id = pid ∧ p.user_id = uid)) :
    deleteProject db pid uid = (false, db) := by
  obtain ⟨us, ps, cs, ms, ss, n1, n2, n3, n4, n5⟩ := db
  have hrem : ps.filter (fun p => p.id == pid && p.user_id == uid) = [] :=
    List.filter_eq_nil_iff.mpr (fun p hp => by simpa using h p hp)
  have hkept : ps.filter (fun p => !(p.id == pid && p.user_id == uid)) = ps :=
    List.filter_eq_self.mpr (fun p hp => by
      have hnp := h p hp
      by_cases h1 : p.id = pid
      · have h2 : p.user_id ≠ uid := fun h2 => hnp ⟨h1, h2⟩
        simp [h2]
      · simp [h1])
  simp only [deleteProject, hrem, hkept]
  simp
  clear h hrem hkept
  induction ss with
  | nil => rfl
  | cons s rest ih =>
    simp only [List.map_cons, List.cons.injEq]
    refine ⟨?_, ih⟩
    rcases hsm : s.message_id with _ | mid <;> simp [hsm]

/-- C1: deleteProject performs the ownership check and the deletion as one
conditional delete matching both id and owning user id; it returns true
when a matching owned row exists and false on every call thereafter with
the same arguments; when no row matches both predicates (missing id,
already deleted, or non-owner) it returns false, never fails, and leaves
the store unchanged. -/
theorem deleteProject_conditional_once :
    (∀ (db : DB) (pid uid : Nat),
        (∃ p ∈ db.projects, p.id = pid ∧ p.user_id = uid) →
        (deleteProject db pid uid).1 = true ∧
        deleteProject (deleteProject db pid uid).2 pid uid =
          (false, (deleteProject db pid uid).2)) ∧
    (∀ (db : DB) (pid uid : Nat),
        (∀ p ∈ db.projects, ¬(p.id = pid ∧ p.user_id = uid)) →
        deleteProject db pid uid = (false, db)) := by
  constructor
  · rintro db pid uid ⟨p, hp, hid, huid⟩
    constructor
    · have hmem : p ∈ db.projects.filter
          (fun q => q.id == pid && q.user_id == uid) :=
        List.mem_filter.mpr ⟨hp, by simp [hid, huid]⟩
      have hpos : 0 < (db.projects.filter
          (fun q => q.id == pid && q.user_id == uid)).length :=
        List.length_pos.mpr (List.ne_nil_of_mem hmem)
      simp only [deleteProject]
      exact decide_eq_true hpos
    · apply deleteProject_no_match
      intro q hq
      simp only [deleteProject] at hq
      have := (List.mem_filter.mp hq).2
      simp only [Bool.not_eq_true', Bool.and_eq_false_iff, beq_eq_false_iff_ne,
        ne_eq] at this
      rintro ⟨h1, h2⟩
      rcases this with h | h
      · exact h h1
      · exact h h2
  · intro db pid uid h
    exact deleteProject_no_match db pid uid h

/-- Witness for C1 at a concrete store: deleting project 1 owned by user 1
returns true, and the repeated call returns false and changes nothing. -/
theorem deleteProject_conditional_once_witness :
    (deleteProject dbC1 1 1).1 = true ∧
    deleteProject (deleteProject dbC1 1 1).2 1 1 =
      (false, (deleteProject dbC1 1 1).2) :=
  (deleteProject_conditional_once).1 dbC1 1 1 ⟨pC1, by simp [dbC1], rfl, rfl⟩

/-- C2: createConversation fails with a not-found-style error whenever the
supplied user_id references no user, whenever project_id references no
project, or whenever the project exists but its owner differs from the
supplied user_id; consequently every conversation row it creates has
user_id equal to the user_id of its parent project at creation time. -/
theorem createConversation_ownership :
    (∀ (db : DB) (now : Nat) (i : CreateConversationInput),
        (∀ u ∈ db.users, u.id ≠ i.user_id) →
        ∃ e, createConversation db now i = .error e) ∧
    (∀ (db : DB) (now : Nat) (i : CreateConversationInput),
        (∀ p ∈ db.projects, p.id ≠ i.project_id) →
        ∃ e, createConversation db now i = .error e) ∧
    (∀ (db : DB) (now : Nat) (i : CreateConversationInput),
        (∀ p ∈ db.projects, p.id = i.project_id → p.user_id ≠ i.user_id) →
        ∃ e, createConversation db now i = .error e) ∧
    (∀ (db : DB) (now : Nat) (i : CreateConversationInput) (c : Conversation)
        (db' : DB), createConversation db now i = .ok (c, db') →
        c.user_id = i.user_id ∧
        ∃ p ∈ db.projects, p.id = c.project_id ∧ p.user_id = c.user_id) := by
  refine ⟨?_, ?_, ?_, ?_⟩
  · intro db now i h
    have hnil : db.users.filter (fun u => u.id == i.user_id) = [] :=
      List.filter_eq_nil_iff.mpr (fun u hu => by simpa using h u hu)
    unfold createConversation
    rw [hnil]
    exact ⟨_, rfl⟩
  · intro db now i h
    have hnil : db.projects.filter
        (fun p => p.id == i.project_id && p.user_id == i.user_id) = [] :=
      List.filter_eq_nil_iff.mpr (fun p hp => by
        simp only [Bool.and_eq_true, beq_iff_eq, not_and]
        intro h1 _
        exact h p hp h1)
    unfold createConversation
    by_cases hu : (db.users.filter (fun u => u.id == i.user_id)).isEmpty = true
    · rw [if_pos hu]
      exact ⟨_, rfl⟩
    · rw [if_neg hu, hnil]
      exact ⟨_, rfl⟩
  · intro db now i h
    have hnil : db.projects.filter
        (fun p => p.id == i.project_id && p.user_id == i.user_id) = [] :=
      List.filter_eq_nil_iff.mpr (fun p hp => by
        simp only [Bool.and_eq_true, beq_iff_eq, not_and]
        intro h1 h2
        exact h p hp h1 h2)
    unfold createConversation
    by_cases hu : (db.users.filter (fun u => u.id == i.user_id)).isEmpty = true
    · rw [if_pos hu]
      exact ⟨_, rfl⟩
    · rw [if_neg hu, hnil]
      exact ⟨_, rfl⟩
  · intro db now i c db' h
    unfold createConversation at h
    by_cases hu : (db.users.filter (fun u => u.id == i.user_id)).isEmpty = true
    · rw [if_pos hu] at h
      cases h
    · rw [if_neg hu] at h
      by_cases hpj : (db.projects.filter
          (fun p => p.id == i.project_id && p.user_id == i.user_id)).isEmpty = true
      · rw [if_pos hpj] at h
        cases h
      · rw [if_neg hpj] at h
        simp only [Except.ok.injEq, Prod.mk.injEq] at h
        obtain ⟨hc, _⟩ := h
        subst hc
        refine ⟨rfl, ?_⟩
        have hf : (db.projects.filter
            (fun p => p.id == i.project_id && p.user_id == i.user_id)).isEmpty
              = false := by
          simpa using hpj
        obtain ⟨p, hp⟩ :=
          List.exists_mem_of_ne_nil _ (List.isEmpty_eq_false.mp hf)
        have hpred := (List.mem_filter.mp hp).2
        simp only [Bool.and_eq_true, beq_iff_eq] at hpred
        exact ⟨p, (List.mem_filter.mp hp).1, hpred.1, hpred.2⟩

/-- Witness for C2 at a concrete store: the created conversation carries
the acting user id, which equals the owner id of its parent project. -/
theorem createConversation_ownership_witness :
    cC2.user_id = inC2.user_id ∧
    ∃ p ∈ dbC2.projects, p.id = cC2.project_id ∧ p.user_id = cC2.user_id :=
  (createConversation_ownership).2.2.2 dbC2 5 inC2 cC2 dbC2' rfl

/-- C4 counterexample: store `dbC4` holds a conversation and no messages at
all; the input supplies message_id = 0, which references no existing
message, so the claim predicts a failure — yet the call succeeds. -/
theorem createCodeSnippet_message_check_counterexample :
    dbC4.messages = [] ∧ inC4.message_id = some 0 ∧
    (createCodeSnippet dbC4 7 inC4).isOk = true :=
  ⟨rfl, rfl, rfl⟩

/-- C4 (amended): createCodeSnippet fails when the conversation does not
exist, when a supplied nonzero message_id references no existing message,
and when a supplied nonzero message_id references a message of a different
conversation; a supplied message_id of 0 is treated as absent and stored
as null; when it succeeds, any stored non-null message_id references a
message of the same conversation as the snippet. -/
theorem createCodeSnippet_checks :
    (∀ (db : DB) (now : Nat) (i : CreateCodeSnippetInput),
        (∀ c ∈ db.conversations, c.id ≠ i.conversation_id) →
        ∃ e, createCodeSnippet db now i = .error e) ∧
    (∀ (db : DB) (now : Nat) (i : CreateCodeSnippetInput) (m : Nat),
        i.message_id = some m → m ≠ 0 →
        (∀ msg ∈ db.messages, msg.id ≠ m) →
        ∃ e, createCodeSnippet db now i = .error e) ∧
    (∀ (db : DB) (now : Nat) (i : CreateCodeSnippetInput) (m : Nat)
        (msg : Message),
        i.message_id = some m → m ≠ 0 →
        db.messages.find? (fun x => x.id == m) = some msg →
        msg.conversation_id ≠ i.conversation_id →
        ∃ e, createCodeSnippet db now i = .error e) ∧
    (∀ (db : DB) (now : Nat) (i : CreateCodeSnippetInput) (s : CodeSnippet)
        (db' : DB) (m : Nat),
        createCodeSnippet db now i = .ok (s, db') → s.message_id = some m →
        ∃ msg ∈ db.messages, msg.id = m ∧
          msg.conversation_id = s.conversation_id) := by
  refine ⟨?_, ?_, ?_, ?_⟩
  · intro db now i h
    have hnil : db.conversations.filter (fun c => c.id == i.conversation_id) = [] :=
      List.filter_eq_nil_iff.mpr (fun c hc => by simpa using h c hc)
    unfold createCodeSnippet
    rw [hnil]
    exact ⟨_, rfl⟩
  · intro db now i m hmid hm0 h
    unfold createCodeSnippet
    by_cases hc : (db.conversations.filter
        (fun c => c.id == i.conversation_id)).isEmpty = true
    · rw [if_pos hc]
      exact ⟨_, rfl⟩
    · rw [if_neg hc]
      have htr : truthyNat i.message_id = true := by
        rw [hmid]
        simp [truthyNat, hm0]
      have hfind : db.messages.find?
          (fun x => x.id == i.message_id.getD 0) = none :=
        List.find?_eq_none.mpr (fun x hx => by
          rw [hmid]
          simpa using h x hx)
      simp only [htr, if_true, hfind]
      exact ⟨_, rfl⟩
  · intro db now i m msg hmid hm0 hfind hne
    unfold createCodeSnippet
    by_cases hc : (db.conversations.filter
        (fun c => c.id == i.conversation_id)).isEmpty = true
    · rw [if_pos hc]
      exact ⟨_, rfl⟩
    · rw [if_neg hc]
      have htr : truthyNat i.message_id = true := by
        rw [hmid]
        simp [truthyNat, hm0]
      have hfind' : db.messages.find?
          (fun x => x.id == i.message_id.getD 0) = some msg := by
        rw [hmid]
        simpa using hfind
      simp only [htr, if_true, hfind']
      rw [if_pos hne]
      exact ⟨_, rfl⟩
  · intro db now i s db' m h hsm
    unfold createCodeSnippet at h
    split at h
    · cases h
    · cases htr : truthyNat i.message_id with
      | false =>
        simp only [htr, Bool.false_eq_true, if_false] at h
        simp only [Except.ok.injEq, Prod.mk.injEq] at h
        obtain ⟨hs, _⟩ := h
        subst hs
        simp [htr] at hsm
      | true =>
        simp only [htr, if_true] at h
        split at h
        · cases h
        · rename_i a heq
          rcases hf : db.messages.find? (fun x => x.id == i.message_id.getD 0)
            with _ | msg
          · simp only [hf] at heq
            cases heq
          · simp only [hf] at heq
            by_cases hmc : msg.conversation_id ≠ i.conversation_id
            · rw [if_pos hmc] at heq
              cases heq
            · simp only [Except.ok.injEq, Prod.mk.injEq] at h
              obtain ⟨hs, _⟩ := h
              subst hs
              have hmsgid : i.message_id = some m := by
                simpa [htr] using hsm
              have hmem : msg ∈ db.messages := List.mem_of_find?_eq_some hf
              have hid : msg.id = m := by
                have hps := List.find?_some hf
                rw [hmsgid] at hps
                simpa using hps
              exact ⟨msg, hmem, hid, not_ne_iff.mp hmc⟩

/-- Witness for C4 (amended): creating a snippet against the empty store
fails because the conversation does not exist. -/
theorem createCodeSnippet_checks_witness :
    ∃ e, createCodeSnippet DB.empty 3 inW4 = .error e :=
  (createCodeSnippet_checks).1 DB.empty 3 inW4 (by simp [DB.empty])

/-- C3: for every update operation (updateUser, updateProject,
updateConversation, updateCodeSnippet) on an existing row: every mutable
field omitted from the input is unchanged in the returned row, every field
present in the input (including one explicitly supplied as null, where
nullable) is overwritten with the supplied value, immutable fields and
created_at are untouched, updated_at is set to the call time — hence
strictly increases whenever the clock advanced — and an update supplying
no mutable fields at all still succeeds and still advances updated_at. -/
theorem update_handlers_partial_semantics :
    (∀ (db : DB) (now : Nat) (i : UpdateUserInput) (u : User),
        db.users.find? (fun x => x.id == i.id) = some u →
        ∃ u' db', updateUser db now i = .ok (u', db') ∧
          u'.id = u.id ∧ u'.email = u.email ∧
          u'.auth_provider = u.auth_provider ∧
          u'.auth_provider_id = u.auth_provider_id ∧
          u'.created_at = u.created_at ∧
          (i.name = none → u'.name = u.name) ∧
          (∀ v, i.name = some v → u'.name = v) ∧
          (i.avatar_url = none → u'.avatar_url = u.avatar_url) ∧
          (∀ v, i.avatar_url = some v → u'.avatar_url = v) ∧
          (i.preferred_coding_language = none →
            u'.preferred_coding_language = u.preferred_coding_language) ∧
          (∀ v, i.preferred_coding_language = some v →
            u'.preferred_coding_language = v) ∧
          (i.preferred_ai_model = none →
            u'.preferred_ai_model = u.preferred_ai_model) ∧
          (∀ v, i.preferred_ai_model = some v → u'.preferred_ai_model = v) ∧
          u'.updated_at = now ∧
          (u.updated_at < now → u.updated_at < u'.updated_at)) ∧
    (∀ (db : DB) (now : Nat) (i : UpdateProjectInput) (p : Project),
        db.projects.find? (fun x => x.id == i.id) = some p →
        ∃ p' db', updateProject db now i = .ok (p', db') ∧
          p'.id = p.id ∧ p'.user_id = p.user_id ∧
          p'.created_at = p.created_at ∧
          (i.name = none → p'.name = p.name) ∧
          (∀ v, i.name = some v → p'.name = v) ∧
          (i.description = none → p'.description = p.description) ∧
          (∀ v, i.description = some v → p'.description = v) ∧
          (i.coding_language = none → p'.coding_language = p.coding_language) ∧
          (∀ v, i.coding_language = some v → p'.coding_language = v) ∧
          p'.updated_at = now ∧
          (p.updated_at < now → p.updated_at < p'.updated_at)) ∧
    (∀ (db : DB) (now : Nat) (i : UpdateConversationInput) (c : Conversation),
        db.conversations.find? (fun x => x.id == i.id) = some c →
        ∃ c' db', updateConversation db now i = .ok (c', db') ∧
          c'.id = c.id ∧ c'.project_id = c.project_id ∧
          c'.user_id = c.user_id ∧ c'.created_at = c.created_at ∧
          (i.title = none → c'.title = c.title) ∧
          (∀ v, i.title = some v → c'.title = v) ∧
          (i.ai_model = none → c'.ai_model = c.ai_model) ∧
          (∀ v, i.ai_model = some v → c'.ai_model = v) ∧
          c'.updated_at = now ∧
          (c.updated_at < now → c.updated_at < c'.updated_at)) ∧
    (∀ (db : DB) (now : Nat) (i : UpdateCodeSnippetInput) (s : CodeSnippet),
        db.codeSnippets.find? (fun x => x.id == i.id) = some s →
        ∃ s' db', updateCodeSnippet db now i = .ok (s', db') ∧
          s'.id = s.id ∧ s'.conversation_id = s.conversation_id ∧
          s'.message_id = s.message_id ∧ s'.created_at = s.created_at ∧
          (i.title = none → s'.title = s.title) ∧
          (∀ v, i.title = some v → s'.title = v) ∧
          (i.code = none → s'.code = s.code) ∧
          (∀ v, i.code = some v → s'.code = v) ∧
          (i.language = none → s'.language = s.language) ∧
          (∀ v, i.language = some v → s'.language = v) ∧
          (i.description = none → s'.description = s.description) ∧
          (∀ v, i.description = some v → s'.description = v) ∧
          s'.updated_at = now ∧
          (s.updated_at < now → s.updated_at < s'.updated_at)) := by
  refine ⟨?_, ?_, ?_, ?_⟩
  · intro db now i u hfind
    unfold updateUser
    rw [hfind]
    exact ⟨_, _, rfl, rfl, rfl, rfl, rfl, rfl,
      fun h => by simp [applyUserUpdate, h],
      fun v h => by simp [applyUserUpdate, h],
      fun h => by simp [applyUserUpdate, h],
      fun v h => by simp [applyUserUpdate, h],
      fun h => by simp [applyUserUpdate, h],
      fun v h => by simp [applyUserUpdate, h],
      fun h => by simp [applyUserUpdate, h],
      fun v h => by simp [applyUserUpdate, h],
      rfl, fun h => h⟩
  · intro db now i p hfind
    unfold updateProject
    rw [hfind]
    exact ⟨_, _, rfl, rfl, rfl, rfl,
      fun h => by simp [applyProjectUpdate, h],
      fun v h => by simp [applyProjectUpdate, h],
      fun h => by simp [applyProjectUpdate, h],
      fun v h => by simp [applyProjectUpdate, h],
      fun h => by simp [applyProjectUpdate, h],
      fun v h => by simp [applyProjectUpdate, h],
      rfl, fun h => h⟩
  · intro db now i c hfind
    unfold updateConversation
    rw [hfind]
    exact ⟨_, _, rfl, rfl, rfl, rfl, rfl,
      fun h => by simp [applyConversationUpdate, h],
      fun v h => by simp [applyConversationUpdate, h],
      fun h => by simp [applyConversationUpdate, h],
      fun v h => by simp [applyConversationUpdate, h],
      rfl, fun h => h⟩
  · intro db now i s hfind
    unfold updateCodeSnippet
    rw [hfind]
    exact ⟨_, _, rfl, rfl, rfl, rfl, rfl,
      fun h => by simp [applyCodeSnippetUpdate, h],
      fun v h => by simp [applyCodeSnippetUpdate, h],
      fun h => by simp [applyCodeSnippetUpdate, h],
      fun v h => by simp [applyCodeSnippetUpdate, h],
      fun h => by simp [applyCodeSnippetUpdate, h],
      fun v h => by simp [applyCodeSnippetUpdate, h],
      fun h => by simp [applyCodeSnippetUpdate, h],
      fun v h => by simp [applyCodeSnippetUpdate, h],
      rfl, fun h => h⟩

/-- Witness for C3: an update of user 1 supplying no mutable fields at all
succeeds against a concrete store and sets updated_at to the call time. -/
theorem update_handlers_partial_semantics_witness :
    ∃ u' db', updateUser dbC3 9 iC3 = .ok (u', db') ∧
      u'.id = uC2.id ∧ u'.email = uC2.email ∧
      u'.auth_provider = uC2.auth_provider ∧
      u'.auth_provider_id = uC2.auth_provider_id ∧
      u'.created_at = uC2.created_at ∧
      (iC3.name = none → u'.name = uC2.name) ∧
      (∀ v, iC3.name = some v → u'.name = v) ∧
      (iC3.avatar_url = none → u'.avatar_url = uC2.avatar_url) ∧
      (∀ v, iC3.avatar_url = some v → u'.avatar_url = v) ∧
      (iC3.preferred_coding_language = none →
        u'.preferred_coding_language = uC2.preferred_coding_language) ∧
      (∀ v, iC3.preferred_coding_language = some v →
        u'.preferred_coding_language = v) ∧
      (iC3.preferred_ai_model = none →
        u'.preferred_ai_model = uC2.preferred_ai_model) ∧
      (∀ v, iC3.preferred_ai_model = some v → u'.preferred_ai_model = v) ∧
      u'.updated_at = 9 ∧
      (uC2.updated_at < 9 → uC2.updated_at < u'.updated_at) :=
  (update_handlers_partial_semantics).1 dbC3 9 iC3 uC2 rfl

end Workbench
